import Mathlib

/-!
Verification development for the card-scanner streaming OCR pipeline.

Shallow embedding of:
- src/renderer/utils/temporalOCRFusion.ts   (TemporalOCRFusion)
- src/renderer/utils/streamingOCRService.ts (StreamingOCRService)
- the StreamingROIManager (hypothesis harvesting, medium loop)
- the CardStabilityTracker (fast loop)

Conventions of the embedding:
- JS numbers carrying confidences are modelled as rationals (ℚ);
  timestamps (Date.now() values, milliseconds) as integers (ℤ).
- JS Map objects are modelled as association lists preserving insertion
  order, with Map.set semantics (overwrite in place, append when absent).
- Mutating methods become functions from state to state.
- Pixel-level image analysis (Sobel, Laplacian variance, homography) is an
  external measurement: a frame is abstracted into the scalar measurements
  the tracker derives from it, and OCR readings are abstract inputs.
-/

namespace CardScanner

/-! ## Kernel-computable rational arithmetic

The library's field operations on ℚ are irreducible, so a witness could
not evaluate them; these wrappers compute the same values through mkRat
(bridge lemmas qadd_eq and qmul_eq below equate them with + and *). -/

def qadd (a b : ℚ) : ℚ :=
  mkRat (a.num * b.den + b.num * a.den) (a.den * b.den)

def qmul (a b : ℚ) : ℚ :=
  mkRat (a.num * b.num) (a.den * b.den)

def qsub (a b : ℚ) : ℚ :=
  mkRat (a.num * b.den - b.num * a.den) (a.den * b.den)

def qdiv (a b : ℚ) : ℚ :=
  mkRat (a.num * b.den * b.num.sign) (a.den * b.num.natAbs)

/-! ## Basic string helpers (JS semantics on the ASCII alphabet in play) -/

/-- JS String.prototype.trim (whitespace on the alphabet in play). -/
def jsTrim (s : String) : String :=
  String.mk (((s.data.dropWhile Char.isWhitespace).reverse.dropWhile Char.isWhitespace).reverse)

/-- JS String.prototype.toUpperCase (ASCII). -/
def jsUpper (s : String) : String :=
  String.mk (s.data.map Char.toUpper)

/-- Leftmost maximal digit run, as matched by the regex /(\d+)/ :
first position holding a digit, then the greedy run of digits from it. -/
def findDigitRun : List Char → Option (List Char)
  | [] => none
  | c :: cs => if c.isDigit then some (c :: cs.takeWhile Char.isDigit) else findDigitRun cs

/-- Numeric value of a digit run (what JS parseInt returns on it). -/
def natOfDigits (ds : List Char) : ℕ :=
  ds.foldl (fun n c => n * 10 + (c.toNat - 48)) 0

/-- JS regex word character for word boundaries: [A-Za-z0-9_]. -/
def isWordChar (c : Char) : Bool :=
  c.isAlpha || c.isDigit || c == '_'

/-- Word boundary immediately after a matched uppercase token:
end of string, or a non-word character. -/
def boundaryAfter : List Char → Bool
  | [] => true
  | c :: _ => !isWordChar c

/-- Try to match exactly k uppercase letters at the head followed by a
word boundary (one backtracking step of the regex [A-Z]{2,5}\b). -/
def tryTokenLen (l : List Char) (k : ℕ) : Option (List Char) :=
  let pre := l.take k
  if pre.length = k && pre.all Char.isUpper && boundaryAfter (l.drop k) then some pre else none

/-- Greedy match of ([A-Z]{2,5})\b at the head of the list. -/
def tokenAt (l : List Char) : Option (List Char) :=
  match tryTokenLen l 5 with
  | some t => some t
  | none => match tryTokenLen l 4 with
    | some t => some t
    | none => match tryTokenLen l 3 with
      | some t => some t
      | none => tryTokenLen l 2

/-- Leftmost match of the regex \b([A-Z]{2,5})\b, scanning with the
previous character carried to decide the left word boundary. -/
def findSetCodeToken : Option Char → List Char → Option (List Char)
  | _, [] => none
  | prev, c :: cs =>
    let boundaryHere := match prev with
      | none => true
      | some p => !isWordChar p
    match (if boundaryHere then tokenAt (c :: cs) else none) with
    | some t => some t
    | none => findSetCodeToken (some c) cs

/-- Leftmost match of the plain regex /[A-Z]{2,5}/ (no word boundaries):
first position starting at least two consecutive uppercase letters,
greedy up to five. -/
def findUpperRun : List Char → Option (List Char)
  | [] => none
  | c :: cs =>
    if c.isUpper && (match cs with | c2 :: _ => c2.isUpper | [] => false) then
      some (((c :: cs).takeWhile Char.isUpper).take 5)
    else findUpperRun cs

/-! ## Association lists standing for JS Map (insertion order preserved) -/

/-- Map.get: value of the first (unique) entry with the key. -/
def assocGet {α : Type} (l : List (String × α)) (k : String) : Option α :=
  (l.find? (fun p => p.1 == k)).map (fun p => p.2)

/-- Map.set: overwrite in place when the key exists, append otherwise. -/
def assocSet {α : Type} : List (String × α) → String → α → List (String × α)
  | [], k, v => [(k, v)]
  | (k0, v0) :: rest, k, v =>
    if k0 = k then (k, v) :: rest else (k0, v0) :: assocSet rest k v

/-! ## TemporalOCRFusion: data model -/

/-- OCRHypothesis of streamingROIManager.ts. -/
structure OCRHypothesis where
  field : String
  text : String
  confidence : ℚ
  timestamp : ℤ
  preprocessMethod : String
deriving DecidableEq

/-- An entry of TemporalOCRFusion.voteHistory. -/
structure Vote where
  value : String
  confidence : ℚ
  timestamp : ℤ
deriving DecidableEq

/-- FusedField of temporalOCRFusion.ts; an alternative is
(value, votes, confidence). -/
structure FusedField where
  value : String
  confidence : ℚ
  votes : ℕ
  totalVotes : ℕ
  alternatives : List (String × ℕ × ℚ)
deriving DecidableEq

inductive Era where
  | modern
  | middle
  | early
  | unknown
deriving DecidableEq

/-- CardIdentification of temporalOCRFusion.ts (uniqueMatch, unused by the
core logic, is omitted; optional fields are Option, with the empty string
kept distinct from absence because JS truthiness distinguishes them only
at use sites). -/
structure CardIdentification where
  setCode : Option String
  collectorNumber : Option String
  title : Option String
  types : Option String
  confidence : ℚ
  era : Era
deriving DecidableEq

structure SymbolCandidate where
  setCode : String
  confidence : ℚ
deriving DecidableEq

/-- Config constants of TemporalOCRFusion (minVotes 3, confidence
threshold 0.85, voting window 2000 ms, commit cooldown 1000 ms). -/
def minVotes : ℕ := 3

def confidenceThreshold : ℚ := mkRat 85 100

def votingWindow : ℤ := 2000

def COMMIT_COOLDOWN : ℤ := 1000

/-- JS truthiness of an optional string: defined and non-empty. -/
def jsTruthy : Option String → Bool
  | none => false
  | some s => !(s == "")

/-- JS a || b on optional strings: b when a is falsy. -/
def jsOr (a b : Option String) : Option String :=
  if jsTruthy a then a else b

/-! ## normalizeValue -/

/-- TemporalOCRFusion.normalizeValue: trim + uppercase, then per field:
collector_number/footer keep the first digit run re-rendered by parseInt
(dropping leading zeros); set_code keeps the first standalone 2-5
uppercase-letter token; title keeps the raw trimmed text (case kept). -/
def normalizeValue (text : String) (field : String) : String :=
  let normalized := jsUpper (jsTrim text)
  if field = "collector_number" ∨ field = "footer" then
    match findDigitRun normalized.data with
    | some ds => Nat.repr (natOfDigits ds)
    | none => normalized
  else if field = "set_code" then
    match findSetCodeToken none normalized.data with
    | some t => String.mk t
    | none => normalized
  else if field = "title" then
    jsTrim text
  else
    normalized

/-! ## Vote history -/

abbrev VoteHistory := List (String × List Vote)

/-- Keep only the last n votes (the splice(0, length - 20) cap). -/
def capLast (n : ℕ) (l : List Vote) : List Vote :=
  if l.length > n then l.drop (l.length - n) else l

/-- One field of TemporalOCRFusion.updateVoteHistory: push each
hypothesis's normalized text as a vote, then cap the history at 20. -/
def updateField (vh : VoteHistory) (field : String) (hyps : List OCRHypothesis) : VoteHistory :=
  let cur := (assocGet vh field).getD []
  let newVotes := hyps.map (fun h => Vote.mk (normalizeValue h.text field) h.confidence h.timestamp)
  assocSet vh field (capLast 20 (cur ++ newVotes))

/-- TemporalOCRFusion.updateVoteHistory over the whole hypothesis map. -/
def updateVoteHistory (vh : VoteHistory) (hyps : List (String × List OCRHypothesis)) : VoteHistory :=
  hyps.foldl (fun acc p => updateField acc p.1 p.2) vh

/-- TemporalOCRFusion.cleanOldVotes: keep votes younger than twice the
voting window; delete fields left empty. -/
def cleanOldVotes : VoteHistory → ℤ → VoteHistory
  | [], _ => []
  | p :: rest, now =>
    if (p.2.filter (fun v => now - v.timestamp < votingWindow * 2)).isEmpty then
      cleanOldVotes rest now
    else (p.1, p.2.filter (fun v => now - v.timestamp < votingWindow * 2)) :: cleanOldVotes rest now

/-! ## Confusion-aware similarity -/

/-- The confusionPairs map of TemporalOCRFusion's config. -/
def confusionGet : Char → Option Char
  | 'O' => some '0'
  | '0' => some 'O'
  | 'I' => some '1'
  | '1' => some 'I'
  | 'l' => some '1'
  | 'S' => some '5'
  | '5' => some 'S'
  | 'Z' => some '2'
  | '2' => some 'Z'
  | 'B' => some '8'
  | '8' => some 'B'
  | 'G' => some '6'
  | '6' => some 'G'
  | 'q' => some '9'
  | '9' => some 'q'
  | '/' => some '7'
  | '7' => some '/'
  | _ => none

/-- Character at index i, none past the end (JS a[i] yields undefined,
coerced to '' by the source's a[i] || ''). -/
def charAt (l : List Char) (i : ℕ) : Option Char :=
  l.get? i

/-- confusionPairs.get(charA) === charB || confusionPairs.get(charB) ===
charA; an out-of-range position (none) never satisfies it, exactly as ''
never does in the source. -/
def isConfusionPair (a b : Option Char) : Bool :=
  match a, b with
  | some x, some y => confusionGet x == some y || confusionGet y == some x
  | _, _ => false

/-- The differences counter of areValuesSimilar: positions below the
longer length whose characters differ and are not a confusion pair. -/
def diffCount (a b : List Char) : ℕ :=
  (List.range (max a.length b.length)).countP (fun i =>
    !(charAt a i == charAt b i) && !isConfusionPair (charAt a i) (charAt b i))

/-- TemporalOCRFusion.areValuesSimilar. -/
def areValuesSimilar (a b : String) : Bool :=
  if a == b then true
  else if ((a.length : ℤ) - (b.length : ℤ)).natAbs > 1 then false
  else diffCount a.data b.data ≤ 1

/-! ## Vote grouping -/

abbrev VoteGroup := String × List Vote

/-- First phase of groupVotesWithConfusion: a vote joins the first
existing group whose key it is similar to, else founds a new group keyed
by its own value. -/
def insertVote : List VoteGroup → Vote → List VoteGroup
  | [], v => [(v.value, [v])]
  | (k, gs) :: rest, v =>
    if areValuesSimilar v.value k then (k, gs ++ [v]) :: rest
    else (k, gs) :: insertVote rest v

/-- Bump a value's count in a first-occurrence-ordered count list. -/
def bumpCount : List (String × ℕ) → String → List (String × ℕ)
  | [], s => [(s, 1)]
  | (k, n) :: rest, s =>
    if k = s then (k, n + 1) :: rest else (k, n) :: bumpCount rest s

/-- Most frequent literal value of a merged group (stable sort by count
descending, first entry), as the source computes the representative key. -/
def mostCommonValue (vs : List Vote) (dflt : String) : String :=
  let counts := vs.foldl (fun acc v => bumpCount acc v.value) []
  match counts with
  | [] => dflt
  | c :: cs => (cs.foldl (fun best p => if p.2 > best.2 then p else best) c).1

/-- Second phase of groupVotesWithConfusion: each unprocessed group
absorbs the later groups whose keys are similar to its own, and is
re-keyed by its most common literal value (Map.set semantics). The
recursion is driven by a fuel argument so it stays structural; group
count strictly drops each round, so fuel = initial group count always
suffices. -/
def mergeSimilarGroups : ℕ → List VoteGroup → List VoteGroup → List VoteGroup
  | _, acc, [] => acc
  | 0, acc, _ => acc
  | fuel + 1, acc, (k, gs) :: rest =>
    let sim := rest.filter (fun g => areValuesSimilar k g.1)
    let notSim := rest.filter (fun g => !areValuesSimilar k g.1)
    let merged := gs ++ (sim.map (fun g => g.2)).flatten
    mergeSimilarGroups fuel (assocSet acc (mostCommonValue merged k) merged) notSim

/-- TemporalOCRFusion.groupVotesWithConfusion. -/
def groupVotesWithConfusion (votes : List Vote) : List VoteGroup :=
  let groups := votes.foldl insertVote []
  mergeSimilarGroups groups.length [] groups

/-! ## Fusion -/

/-- The per-group statistics ranked by fuseFields. -/
structure GroupStat where
  value : String
  votes : ℕ
  totalConfidence : ℚ
  avgConfidence : ℚ
deriving DecidableEq

def sumConf (vs : List Vote) : ℚ :=
  vs.foldl (fun s v => qadd s v.confidence) 0

/-- Stable descending insertion by totalConfidence (the JS stable sort
with comparator b.totalConfidence - a.totalConfidence). -/
def insertStatDesc (x : GroupStat) : List GroupStat → List GroupStat
  | [] => [x]
  | y :: ys =>
    if y.totalConfidence > x.totalConfidence then y :: insertStatDesc x ys
    else x :: y :: ys

def sortStatsDesc (l : List GroupStat) : List GroupStat :=
  l.foldr insertStatDesc []

/-- One field of TemporalOCRFusion.fuseFields. -/
def fuseField (history : List Vote) (now : ℤ) : Option FusedField :=
  let validVotes := history.filter (fun v => now - v.timestamp < votingWindow)
  if validVotes.isEmpty then none
  else
    let groups := groupVotesWithConfusion validVotes
    let stats := groups.map (fun g =>
      GroupStat.mk g.1 g.2.length (sumConf g.2) (qdiv (sumConf g.2) (g.2.length : ℚ)))
    match sortStatsDesc stats with
    | [] => none
    | w :: rest =>
      some (FusedField.mk w.value w.avgConfidence w.votes validVotes.length
        ((rest.take 2).map (fun g => (g.value, g.votes, g.avgConfidence))))

/-- TemporalOCRFusion.fuseFields over the whole vote history. -/
def fuseFields (vh : VoteHistory) (now : ℤ) : List (String × FusedField) :=
  vh.filterMap (fun p => (fuseField p.2 now).map (fun f => (p.1, f)))

/-! ## Identification -/

def fusedLookup (ff : List (String × FusedField)) (f : String) : Option FusedField :=
  assocGet ff f

/-- /^\d+$/ test. -/
def isAllDigits (s : String) : Bool :=
  !(s == "") && s.data.all Char.isDigit

/-- TemporalOCRFusion.determineEra. -/
def determineEra (setCode collectorNumber : Option String)
    (symb : Option (List SymbolCandidate)) : Era :=
  if jsTruthy setCode && jsTruthy collectorNumber &&
      (match collectorNumber with | some s => isAllDigits s | none => false) then
    Era.modern
  else if (match symb with
    | some (c :: _) => decide (c.confidence > mkRat 7 10)
    | _ => false) then
    Era.middle
  else if !jsTruthy collectorNumber then
    Era.early
  else
    Era.unknown

/-- TemporalOCRFusion.identifyCard (the source always returns an object,
never null). -/
def identifyCard (ff : List (String × FusedField))
    (symb : Option (List SymbolCandidate)) : CardIdentification :=
  let setCode := jsOr ((fusedLookup ff "set_code").map (fun f => f.value))
    ((fusedLookup ff "footer").bind (fun f => (findUpperRun f.value.data).map String.mk))
  let collectorNumber := jsOr ((fusedLookup ff "collector_number").map (fun f => f.value))
    ((fusedLookup ff "footer").bind (fun f => (findDigitRun f.value.data).map String.mk))
  let title := (fusedLookup ff "title").map (fun f => f.value)
  let types := (fusedLookup ff "types").map (fun f => f.value)
  let era := determineEra setCode collectorNumber symb
  let avgConfidence : ℚ :=
    if ff.length = 0 then 0
    else qdiv ((ff.map (fun p => p.2.confidence)).foldl qadd 0) (ff.length : ℚ)
  let c1 := if jsTruthy setCode && jsTruthy collectorNumber then qmul avgConfidence (mkRat 6 5)
    else avgConfidence
  let c2 := if (match symb with | some l => !l.isEmpty | none => false) then qmul c1 (mkRat 11 10)
    else c1
  CardIdentification.mk setCode collectorNumber title types (min 1 c2) era

/-! ## Commit policy -/

/-- TemporalOCRFusion.shouldCommitEarly: high confidence with both key
fields, or strong consensus on every fused field, or the last three
commits identical in set code and collector number. -/
def shouldCommitEarly (ident : CardIdentification) (ff : List (String × FusedField))
    (commitHistory : List CardIdentification) : Bool :=
  (decide (ident.confidence ≥ mkRat 9 10) && jsTruthy ident.setCode && jsTruthy ident.collectorNumber) ||
  ff.all (fun p => decide (p.2.votes ≥ minVotes) && decide (p.2.confidence ≥ mkRat 8 10)) ||
  (let recent := commitHistory.drop (commitHistory.length - 3)
   decide (recent.length ≥ 3) &&
     recent.all (fun h => h.setCode == ident.setCode && h.collectorNumber == ident.collectorNumber))

/-- The mutable state of a TemporalOCRFusion instance. -/
structure FusionState where
  voteHistory : VoteHistory
  commitHistory : List CardIdentification
  lastCommitTime : ℤ
deriving DecidableEq

/-- Fresh state; also the effect of TemporalOCRFusion.reset(). -/
def initFusionState : FusionState :=
  FusionState.mk [] [] 0

structure FusionResult where
  shouldCommit : Bool
  identification : Option CardIdentification
deriving DecidableEq

/-- The vote history after the update and cleanup steps at the head of a
processHypotheses call. -/
def tickHistory (s : FusionState) (hyps : List (String × List OCRHypothesis)) (now : ℤ) :
    VoteHistory :=
  cleanOldVotes (updateVoteHistory s.voteHistory hyps) now

/-- The FusedField snapshot a processHypotheses call computes internally
(after updating and cleaning the vote history). -/
def tickFused (s : FusionState) (hyps : List (String × List OCRHypothesis)) (now : ℤ) :
    List (String × FusedField) :=
  fuseFields (tickHistory s hyps now) now

/-- The identification a processHypotheses call assembles. -/
def tickIdent (s : FusionState) (hyps : List (String × List OCRHypothesis))
    (symb : Option (List SymbolCandidate)) (now : ℤ) : CardIdentification :=
  identifyCard (tickFused s hyps now) symb

/-- TemporalOCRFusion.processHypotheses. -/
def processHypotheses (s : FusionState) (hyps : List (String × List OCRHypothesis))
    (symb : Option (List SymbolCandidate)) (now : ℤ) : FusionState × FusionResult :=
  if now - s.lastCommitTime < COMMIT_COOLDOWN then
    (FusionState.mk (tickHistory s hyps now) s.commitHistory s.lastCommitTime,
     FusionResult.mk false none)
  else if (tickIdent s hyps symb now).confidence ≥ confidenceThreshold ∧
      shouldCommitEarly (tickIdent s hyps symb now) (tickFused s hyps now) s.commitHistory = true then
    (FusionState.mk (tickHistory s hyps now) (s.commitHistory ++ [tickIdent s hyps symb now]) now,
     FusionResult.mk true (some (tickIdent s hyps symb now)))
  else if (tickIdent s hyps symb now).confidence ≥ mkRat 7 10 then
    (FusionState.mk (tickHistory s hyps now) s.commitHistory s.lastCommitTime,
     FusionResult.mk false (some (tickIdent s hyps symb now)))
  else
    (FusionState.mk (tickHistory s hyps now) s.commitHistory s.lastCommitTime,
     FusionResult.mk false none)

/-! ## StreamingOCRService (pipeline controller) -/

/-- StreamingOCRConfig; loop rates kept as rationals (JS numbers). -/
structure StreamingOCRConfig where
  fastLoopFps : ℚ
  mediumLoopFps : ℚ
  slowLoopFps : ℚ
  enableSymbolClassification : Bool
  enableAutoCommit : Bool
  debugMode : Bool
deriving DecidableEq

/-- The defaults of the StreamingOCRService config field. -/
def defaultConfig : StreamingOCRConfig :=
  StreamingOCRConfig.mk 30 7 2 false true true

/-- The observable state of a StreamingOCRService instance: the running
flag, which loops are scheduled, the slots the loops write, the owned
TemporalOCRFusion state, and the events emitted so far (type and
timestamp, in emission order). -/
structure ServiceState where
  isRunning : Bool
  fastLoopScheduled : Bool
  mediumLoopScheduled : Bool
  slowLoopScheduled : Bool
  pendingIdentification : Option CardIdentification
  lastCommittedCard : Option CardIdentification
  fusion : FusionState
  lastROIResults : Option (List (String × List OCRHypothesis))
  symbolCandidates : List SymbolCandidate
  events : List (String × ℤ)
deriving DecidableEq

/-- State of a freshly constructed service (stopped, nothing scheduled). -/
def initServiceState : ServiceState :=
  ServiceState.mk false false false false none none initFusionState none [] []

def emitEvent (st : ServiceState) (ty : String) (now : ℤ) : ServiceState :=
  { st with events := st.events ++ [(ty, now)] }

/-- StreamingOCRService.start: bails out when already running; otherwise
reads the config only to derive timer periods — it performs no validation
of rates or thresholds — resets the trackers and schedules all loops. -/
def serviceStart (_cfg : StreamingOCRConfig) (st : ServiceState) (now : ℤ) : ServiceState :=
  if st.isRunning then st
  else
    let st := { st with
      isRunning := true,
      fusion := initFusionState,
      symbolCandidates := [],
      fastLoopScheduled := true,
      mediumLoopScheduled := true,
      slowLoopScheduled := true }
    emitEvent st "stability-changed" now

/-- StreamingOCRService.commitCard: record the committed card, emit the
event, then reset the whole fusion engine for the next card. -/
def commitCard (st : ServiceState) (ident : CardIdentification) (now : ℤ) : ServiceState :=
  let st := { st with lastCommittedCard := some ident }
  let st := emitEvent st "card-committed" now
  { st with fusion := initFusionState, pendingIdentification := none }

/-- One slow-loop tick of StreamingOCRService: run temporal fusion on the
latest ROI results, publish any identification, and auto-commit when the
fusion engine says so and auto-commit is enabled. -/
def slowLoopTick (cfg : StreamingOCRConfig) (st : ServiceState) (now : ℤ) : ServiceState :=
  if !st.isRunning then st
  else
    match st.lastROIResults with
    | none => st
    | some roi =>
      if roi.isEmpty then st
      else
        let pr := processHypotheses st.fusion roi (some st.symbolCandidates) now
        let st := { st with fusion := pr.1 }
        match pr.2.identification with
        | none => st
        | some ident =>
          let st := { st with pendingIdentification := some ident }
          let st := emitEvent st "card-identified" now
          if pr.2.shouldCommit && cfg.enableAutoCommit then commitCard st ident now
          else st

/-! ## CardStabilityTracker (fast loop)

The pixel-level measurements (Sobel card detection, Laplacian-variance
sharpness, corner motion, rotation angle) are abstracted into the three
scalars a frame yields; detection always falls back to default corners,
so cardPresent is constitutively true and a pose exists after the first
frame (hasPose). The stability bookkeeping is embedded exactly. -/

/-- The scalars analyzeFrame derives from one frame: what calculateMotion
and calculateRotation would return against the previous pose, and the
frame's sharpness. -/
structure FrameMeas where
  motion : ℚ
  rotation : ℚ
  sharpness : ℚ
deriving DecidableEq

def MOTION_THRESHOLD : ℚ := 5

def ROTATION_THRESHOLD : ℚ := mkRat 3 2

def SHARPNESS_THRESHOLD : ℚ := 50

def STABILITY_FRAMES_REQUIRED : ℕ := 5

structure TrackerState where
  hasPose : Bool
  stabilityHistory : List Bool
deriving DecidableEq

/-- Fresh tracker; also the effect of CardStabilityTracker.reset(). -/
def initTrackerState : TrackerState :=
  TrackerState.mk false []

/-- The StabilityMetrics record analyzeFrame returns. -/
structure TrackerMetrics where
  isStable : Bool
  stabilityScore : ℚ
  sharpnessScore : ℚ
  motionDelta : ℚ
  rotationDelta : ℚ
  consecutiveStableFrames : ℕ
  cardPresent : Bool
  readyToRead : Bool
deriving DecidableEq

/-- CardStabilityTracker.calculateStabilityScore. -/
def calculateStabilityScore (motion rotation sharpness : ℚ) (stableFrames : ℕ) : ℚ :=
  let motionScore := max 0 (qsub 1 (qdiv motion MOTION_THRESHOLD))
  let rotationScore := max 0 (qsub 1 (qdiv rotation ROTATION_THRESHOLD))
  let sharpnessScore := min 1 (qdiv sharpness SHARPNESS_THRESHOLD)
  let frameScore := min 1 (qdiv (stableFrames : ℚ) (STABILITY_FRAMES_REQUIRED : ℚ))
  qadd (qadd (qadd (qmul motionScore (mkRat 3 10)) (qmul rotationScore (mkRat 2 10)))
    (qmul sharpnessScore (mkRat 3 10))) (qmul frameScore (mkRat 2 10))

/-- Push a frame verdict and shift the window down to its capacity. -/
def pushShift (hist : List Bool) (b : Bool) : List Bool :=
  let h := hist ++ [b]
  if h.length > STABILITY_FRAMES_REQUIRED then h.tail else h

/-- CardStabilityTracker.analyzeFrame. -/
def analyzeFrame (st : TrackerState) (f : FrameMeas) : TrackerState × TrackerMetrics :=
  let motionDelta := if st.hasPose then f.motion else 0
  let rotationDelta := if st.hasPose then f.rotation else 0
  let isFrameStable :=
    decide (motionDelta < MOTION_THRESHOLD) &&
    decide (rotationDelta < ROTATION_THRESHOLD) &&
    decide (f.sharpness > SHARPNESS_THRESHOLD)
  let hist := pushShift st.stabilityHistory isFrameStable
  let consecutiveStableFrames := (hist.filter id).length
  let isStable := decide (consecutiveStableFrames ≥ STABILITY_FRAMES_REQUIRED)
  let score := calculateStabilityScore motionDelta rotationDelta f.sharpness consecutiveStableFrames
  (TrackerState.mk true hist,
   TrackerMetrics.mk isStable score f.sharpness motionDelta rotationDelta
     consecutiveStableFrames true (isStable && decide (f.sharpness > SHARPNESS_THRESHOLD)))

/-- Run the tracker over a frame sequence (state only). -/
def runFrames (st : TrackerState) (fs : List FrameMeas) : TrackerState :=
  fs.foldl (fun s f => (analyzeFrame s f).1) st

/-- Whether a frame is locally stable given whether a previous pose
exists (without one, the deltas are 0 and only sharpness matters). -/
def localStable (hasPose : Bool) (f : FrameMeas) : Bool :=
  ((!hasPose) || (decide (f.motion < MOTION_THRESHOLD) && decide (f.rotation < ROTATION_THRESHOLD))) &&
  decide (f.sharpness > SHARPNESS_THRESHOLD)

/-- The sequence of local-stability verdicts a frame list produces. -/
def stableSeq : Bool → List FrameMeas → List Bool
  | _, [] => []
  | hp, f :: rest => localStable hp f :: stableSeq true rest

/-- The last n elements of a list. -/
def lastN {α : Type} (n : ℕ) (l : List α) : List α :=
  l.drop (l.length - n)

/-! ## StreamingROIManager (medium loop) -/

/-- The text/confidence pair the text-extraction collaborator returns for
one ROI crop under one preprocessing variant. -/
structure Reading where
  text : String
  confidence : ℚ
deriving DecidableEq

/-- One extraction outcome examined by processROIs: the ROI's field, the
preprocessing variant used ("raw" for the unprocessed pass), and the
collaborator's reading. -/
structure ReadingEvent where
  field : String
  variant : String
  reading : Reading
deriving DecidableEq

abbrev HypMap := List (String × List OCRHypothesis)

/-- The similarity test of StreamingROIManager.addHypothesis: same text
and same preprocessing variant. -/
def sameTextVariant (h x : OCRHypothesis) : Bool :=
  x.text == h.text && x.preprocessMethod == h.preprocessMethod

/-- Update the first matching hypothesis by exponential moving average of
confidence (old * 0.7 + incoming * 0.3) and refresh its timestamp. -/
def emaUpdate (h : OCRHypothesis) : List OCRHypothesis → List OCRHypothesis
  | [] => []
  | x :: xs =>
    if sameTextVariant h x then
      { x with confidence := qadd (qmul x.confidence (mkRat 7 10)) (qmul h.confidence (mkRat 3 10)),
               timestamp := h.timestamp } :: xs
    else x :: emaUpdate h xs

/-- Stable descending insertion by confidence (the JS stable sort with
comparator b.confidence - a.confidence). -/
def insertHypDesc (x : OCRHypothesis) : List OCRHypothesis → List OCRHypothesis
  | [] => [x]
  | y :: ys =>
    if y.confidence > x.confidence then y :: insertHypDesc x ys
    else x :: y :: ys

def sortHypsDesc (l : List OCRHypothesis) : List OCRHypothesis :=
  l.foldr insertHypDesc []

/-- The per-field body of StreamingROIManager.addHypothesis: merge into an
existing same-text/same-variant hypothesis via EMA, else append and cap
the list at the top 5 by confidence. -/
def addToList (l : List OCRHypothesis) (h : OCRHypothesis) : List OCRHypothesis :=
  if (l.find? (sameTextVariant h)).isSome then emaUpdate h l
  else
    let l2 := l ++ [h]
    if l2.length > 5 then (sortHypsDesc l2).take 5 else l2

/-- StreamingROIManager.addHypothesis. -/
def addHypothesis (m : HypMap) (field : String) (h : OCRHypothesis) : HypMap :=
  assocSet m field (addToList ((assocGet m field).getD []) h)

/-- StreamingROIManager.cleanOldHypotheses: drop hypotheses older than
2000 ms; delete fields left empty. -/
def cleanOldHypotheses : HypMap → ℤ → HypMap
  | [], _ => []
  | p :: rest, now =>
    if (p.2.filter (fun h => now - h.timestamp < 2000)).isEmpty then
      cleanOldHypotheses rest now
    else (p.1, p.2.filter (fun h => now - h.timestamp < 2000)) :: cleanOldHypotheses rest now

/-- The acceptance loop of the fresh-extraction path of processROIs: a
reading becomes a hypothesis only if its confidence exceeds 0.3 and its
text is non-empty. -/
def processReadingsFresh (m : HypMap) (rs : List ReadingEvent) (now : ℤ) : HypMap :=
  rs.foldl (fun acc e =>
    if e.reading.confidence > mkRat 3 10 ∧ 0 < e.reading.text.length then
      addHypothesis acc e.field
        (OCRHypothesis.mk e.field e.reading.text e.reading.confidence now e.variant)
    else acc) m

/-- The acceptance loop of processCachedROIs (the cached-ROI reuse path):
the source tests only the confidence floor there. -/
def processReadingsCached (m : HypMap) (rs : List ReadingEvent) (now : ℤ) : HypMap :=
  rs.foldl (fun acc e =>
    if e.reading.confidence > mkRat 3 10 then
      addHypothesis acc e.field
        (OCRHypothesis.mk e.field e.reading.text e.reading.confidence now e.variant)
    else acc) m

/-- StreamingROIManager.processROIs restricted to its hypothesis effect
(fresh-extraction path): accept readings, then clean old hypotheses. -/
def processROIsFresh (m : HypMap) (rs : List ReadingEvent) (now : ℤ) : HypMap :=
  cleanOldHypotheses (processReadingsFresh m rs now) now

/-- StreamingROIManager.processCachedROIs restricted to its hypothesis
effect. -/
def processROIsCached (m : HypMap) (rs : List ReadingEvent) (now : ℤ) : HypMap :=
  cleanOldHypotheses (processReadingsCached m rs now) now

/-! ## Specification-side predicates (from the spec's words, for
refinement comparisons) -/

/-- The spec's confusion-aware same-vote test: lengths within one of each
other, and at most one differing character position that is not a member
of the confusion-pair table. -/
def specSameVote (a b : String) : Prop :=
  ((a.length : ℤ) - (b.length : ℤ)).natAbs ≤ 1 ∧
  ((List.range (max a.length b.length)).filter (fun i =>
      !(charAt a.data i == charAt b.data i) &&
      !isConfusionPair (charAt a.data i) (charAt b.data i))).length ≤ 1

instance (a b : String) : Decidable (specSameVote a b) := by
  unfold specSameVote
  infer_instance

/-- The acceptance invariant of the hypothesis store: every held
hypothesis came from a reading above the 0.3 confidence floor and with
non-empty text. -/
def HypInv (m : HypMap) : Prop :=
  ∀ p ∈ m, ∀ h ∈ p.2, mkRat 3 10 < h.confidence ∧ 0 < h.text.length

instance (m : HypMap) : Decidable (HypInv m) := by
  unfold HypInv
  infer_instance

/-! ## Concrete scenario inputs used by witnesses and counterexamples -/

/-- Three agreeing readings for one field, under the three preprocessing
variants of its ROI definition. -/
def hyp3 (f t : String) (c : ℚ) (ts : ℤ) : List OCRHypothesis :=
  [OCRHypothesis.mk f t c ts "raw", OCRHypothesis.mk f t c ts "otsu",
   OCRHypothesis.mk f t c ts "sauvola"]

/-- A clean read: set code EMN and collector number 204, three votes
each at confidence 0.9, harvested at t = 10000. -/
def emnMap : List (String × List OCRHypothesis) :=
  [("set_code", hyp3 "set_code" "EMN" (mkRat 9 10) 10000),
   ("collector_number", hyp3 "collector_number" "204" (mkRat 9 10) 10000)]

/-- A title-only read: three votes at confidence 0.8. -/
def titleMap : List (String × List OCRHypothesis) :=
  [("title", hyp3 "title" "ABC" (mkRat 8 10) 10000)]

/-- A single title hypothesis (used to watch votes double). -/
def oneTitleMap : List (String × List OCRHypothesis) :=
  [("title", [OCRHypothesis.mk "title" "ABC" (mkRat 1 2) 10000 "raw"])]

/-- A running service whose medium loop last produced emnMap. -/
def startedState : ServiceState :=
  { initServiceState with isRunning := true, fastLoopScheduled := true,
                          mediumLoopScheduled := true, slowLoopScheduled := true,
                          lastROIResults := some emnMap }

/-- An in-threshold frame: no motion, no rotation, sharpness 100. -/
def goodFrame : FrameMeas :=
  FrameMeas.mk 0 0 100

/-- An out-of-threshold frame: 10 px of motion (threshold 5). -/
def badFrame : FrameMeas :=
  FrameMeas.mk 10 0 100

/-- An invalid configuration: fast-loop rate 0 frames per second. -/
def zeroRateConfig : StreamingOCRConfig :=
  { defaultConfig with fastLoopFps := 0 }

/-- A sample accepted reading as a hypothesis. -/
def sampleHyp : OCRHypothesis :=
  OCRHypothesis.mk "collector_number" "204" 1 0 "raw"

/-! # Theorems

First the bridge lemmas for the computable rational arithmetic and the
shared helper lemmas, then one theorem per claim (with witnesses and
counterexamples where the claim calls for them). -/

theorem qadd_eq (a b : ℚ) : qadd a b = a + b := by
  rw [qadd, Rat.mkRat_eq_divInt, Rat.divInt_eq_div]
  have ha : ((a.den : ℚ)) ≠ 0 := Nat.cast_ne_zero.mpr a.den_nz
  have hb : ((b.den : ℚ)) ≠ 0 := Nat.cast_ne_zero.mpr b.den_nz
  conv_rhs => rw [← Rat.num_div_den a, ← Rat.num_div_den b]
  field_simp

theorem qmul_eq (a b : ℚ) : qmul a b = a * b := by
  rw [qmul, Rat.mkRat_eq_divInt, Rat.divInt_eq_div]
  have ha : ((a.den : ℚ)) ≠ 0 := Nat.cast_ne_zero.mpr a.den_nz
  have hb : ((b.den : ℚ)) ≠ 0 := Nat.cast_ne_zero.mpr b.den_nz
  conv_rhs => rw [← Rat.num_div_den a, ← Rat.num_div_den b]
  field_simp

theorem mkRat_seven_tenths : (mkRat 7 10 : ℚ) = 7 / 10 := by
  rw [Rat.mkRat_eq_divInt, Rat.divInt_eq_div]
  norm_num

theorem mkRat_three_tenths : (mkRat 3 10 : ℚ) = 3 / 10 := by
  rw [Rat.mkRat_eq_divInt, Rat.divInt_eq_div]
  norm_num

/-! ## Helper lemmas on the fusion engine -/

theorem updateVoteHistory_nil (vh : VoteHistory) : updateVoteHistory vh [] = vh := rfl

theorem cleanOldVotes_idem (vh : VoteHistory) (now : ℤ) :
    cleanOldVotes (cleanOldVotes vh now) now = cleanOldVotes vh now := by
  induction vh with
  | nil => rfl
  | cons p rest ih =>
    by_cases hE : (p.2.filter (fun v => now - v.timestamp < votingWindow * 2)).isEmpty
    · simp only [cleanOldVotes, hE, if_true]
      exact ih
    · simp only [cleanOldVotes, hE, if_false]
      have hself : (p.2.filter (fun v => now - v.timestamp < votingWindow * 2)).filter
          (fun v => now - v.timestamp < votingWindow * 2) =
          p.2.filter (fun v => now - v.timestamp < votingWindow * 2) := by
        apply List.filter_eq_self.mpr
        intro a ha
        exact (List.mem_filter.mp ha).2
      simp only [cleanOldVotes, hself, hE, if_false]
      rw [ih]

theorem processHypotheses_fst_voteHistory (s : FusionState)
    (hyps : List (String × List OCRHypothesis)) (symb : Option (List SymbolCandidate)) (now : ℤ) :
    ((processHypotheses s hyps symb now).1).voteHistory = tickHistory s hyps now := by
  unfold processHypotheses
  split
  · rfl
  · split
    · rfl
    · split
      · rfl
      · rfl

/-! ## Helper lemmas on the stability tracker window -/

theorem lastN_append_lastN {α : Type} (n : ℕ) (x y : List α) :
    lastN n (lastN n x ++ y) = lastN n (x ++ y) := by
  unfold lastN
  rw [← List.drop_append_of_le_length (by omega : x.length - n ≤ x.length)]
  rw [List.drop_drop]
  congr 1
  simp only [List.length_drop, List.length_append]
  omega

theorem lastN_of_length_le {α : Type} (n : ℕ) (l : List α) (h : l.length ≤ n) :
    lastN n l = l := by
  unfold lastN
  have h0 : l.length - n = 0 := by omega
  rw [h0, List.drop_zero]

theorem length_lastN {α : Type} (n : ℕ) (l : List α) : (lastN n l).length ≤ n := by
  unfold lastN
  simp only [List.length_drop]
  omega

theorem pushShift_eq (h0 : List Bool) (b : Bool) (hle : h0.length ≤ STABILITY_FRAMES_REQUIRED) :
    pushShift h0 b = lastN STABILITY_FRAMES_REQUIRED (h0 ++ [b]) := by
  unfold pushShift lastN STABILITY_FRAMES_REQUIRED
  unfold STABILITY_FRAMES_REQUIRED at hle
  by_cases hlen : (h0 ++ [b]).length > 5
  · simp only [hlen, if_true]
    have hdrop : (h0 ++ [b]).length - 5 = 1 := by
      simp only [List.length_append, List.length_singleton] at *
      omega
    rw [hdrop]
    exact (List.drop_one _).symm
  · simp only [hlen, if_false]
    have hdrop : (h0 ++ [b]).length - 5 = 0 := by
      simp only [List.length_append, List.length_singleton] at *
      omega
    rw [hdrop, List.drop_zero]

theorem pushShift_length (h0 : List Bool) (b : Bool)
    (hle : h0.length ≤ STABILITY_FRAMES_REQUIRED) :
    (pushShift h0 b).length ≤ STABILITY_FRAMES_REQUIRED := by
  rw [pushShift_eq h0 b hle]
  exact length_lastN _ _

theorem analyzeFrame_fst (st : TrackerState) (f : FrameMeas) :
    (analyzeFrame st f).1 =
      TrackerState.mk true (pushShift st.stabilityHistory (localStable st.hasPose f)) := by
  have h1 : (decide ((0 : ℚ) < MOTION_THRESHOLD)) = true := by decide
  have h2 : (decide ((0 : ℚ) < ROTATION_THRESHOLD)) = true := by decide
  unfold analyzeFrame localStable
  cases hp : st.hasPose <;> simp [hp, h1, h2]

theorem runFrames_invariant (fs : List FrameMeas) :
    ∀ (st : TrackerState), st.stabilityHistory.length ≤ STABILITY_FRAMES_REQUIRED →
      (runFrames st fs).stabilityHistory =
        lastN STABILITY_FRAMES_REQUIRED (st.stabilityHistory ++ stableSeq st.hasPose fs) ∧
      (runFrames st fs).hasPose = (st.hasPose || !fs.isEmpty) := by
  induction fs with
  | nil =>
    intro st hle
    constructor
    · show st.stabilityHistory = lastN STABILITY_FRAMES_REQUIRED (st.stabilityHistory ++ [])
      rw [List.append_nil, lastN_of_length_le _ _ hle]
    · simp [runFrames]
  | cons f rest ih =>
    intro st hle
    have hstep : runFrames st (f :: rest) =
        runFrames (TrackerState.mk true
          (pushShift st.stabilityHistory (localStable st.hasPose f))) rest := by
      unfold runFrames
      simp only [List.foldl_cons]
      rw [analyzeFrame_fst]
    rw [hstep]
    have hlen : (pushShift st.stabilityHistory (localStable st.hasPose f)).length ≤
        STABILITY_FRAMES_REQUIRED := pushShift_length _ _ hle
    rcases ih (TrackerState.mk true (pushShift st.stabilityHistory (localStable st.hasPose f)))
      hlen with ⟨h1, h2⟩
    constructor
    · rw [h1]
      show lastN STABILITY_FRAMES_REQUIRED
        (pushShift st.stabilityHistory (localStable st.hasPose f) ++ stableSeq true rest) = _
      rw [pushShift_eq _ _ hle, lastN_append_lastN]
      show lastN STABILITY_FRAMES_REQUIRED
        ((st.stabilityHistory ++ [localStable st.hasPose f]) ++ stableSeq true rest) = _
      rw [List.append_assoc]
      rfl
    · rw [h2]
      cases rest <;> simp

theorem stableSeq_append_single (hp : Bool) (fs : List FrameMeas) (f : FrameMeas) :
    stableSeq hp (fs ++ [f]) = stableSeq hp fs ++ [localStable (hp || !fs.isEmpty) f] := by
  induction fs generalizing hp with
  | nil => simp [stableSeq]
  | cons g rest ih =>
    simp only [List.cons_append, stableSeq, List.append_eq]
    rw [ih true]
    simp

theorem analyzeFrame_metrics (st : TrackerState) (f : FrameMeas) :
    (analyzeFrame st f).2.consecutiveStableFrames =
      ((pushShift st.stabilityHistory (localStable st.hasPose f)).filter id).length ∧
    (analyzeFrame st f).2.isStable =
      decide (((pushShift st.stabilityHistory (localStable st.hasPose f)).filter id).length ≥
        STABILITY_FRAMES_REQUIRED) := by
  have h1 : (decide ((0 : ℚ) < MOTION_THRESHOLD)) = true := by decide
  have h2 : (decide ((0 : ℚ) < ROTATION_THRESHOLD)) = true := by decide
  unfold analyzeFrame localStable
  cases hp : st.hasPose <;> simp [hp, h1, h2]

theorem filter_lastN_ending_false_lt (z : List Bool) :
    ((lastN STABILITY_FRAMES_REQUIRED (z ++ [false])).filter id).length <
      STABILITY_FRAMES_REQUIRED := by
  unfold lastN STABILITY_FRAMES_REQUIRED
  have hk : (z ++ [false]).length - 5 ≤ z.length := by
    simp only [List.length_append, List.length_singleton]
    omega
  rw [List.drop_append_of_le_length hk, List.filter_append]
  have hnil : List.filter id [false] = [] := rfl
  rw [hnil, List.append_nil]
  have h1 : (List.filter id (z.drop ((z ++ [false]).length - 5))).length ≤
      (z.drop ((z ++ [false]).length - 5)).length := List.length_filter_le _ _
  have h2 : (z.drop ((z ++ [false]).length - 5)).length ≤ 4 := by
    simp only [List.length_drop, List.length_append, List.length_singleton]
    omega
  omega

/-! ## Helper lemmas on the ROI manager -/

theorem emaUpdate_length (h : OCRHypothesis) (l : List OCRHypothesis) :
    (emaUpdate h l).length = l.length := by
  induction l with
  | nil => rfl
  | cons y ys ih =>
    unfold emaUpdate
    by_cases hy : sameTextVariant h y
    · simp [hy]
    · simp [hy, ih]

theorem insertHypDesc_length (x : OCRHypothesis) (l : List OCRHypothesis) :
    (insertHypDesc x l).length = l.length + 1 := by
  induction l with
  | nil => rfl
  | cons y ys ih =>
    unfold insertHypDesc
    by_cases hy : y.confidence > x.confidence
    · simp [hy, ih]
    · simp [hy]

theorem sortHypsDesc_length (l : List OCRHypothesis) :
    (sortHypsDesc l).length = l.length := by
  induction l with
  | nil => rfl
  | cons y ys ih =>
    show (insertHypDesc y (sortHypsDesc ys)).length = ys.length + 1
    rw [insertHypDesc_length, ih]

theorem mem_insertHypDesc {x y : OCRHypothesis} {l : List OCRHypothesis}
    (hx : x ∈ insertHypDesc y l) : x = y ∨ x ∈ l := by
  induction l with
  | nil =>
    simp only [insertHypDesc, List.mem_singleton] at hx
    exact Or.inl hx
  | cons z zs ih =>
    unfold insertHypDesc at hx
    by_cases hz : z.confidence > y.confidence
    · simp only [hz, if_true, List.mem_cons] at hx
      rcases hx with hx | hx
      · exact Or.inr (by simp [hx])
      · rcases ih hx with h | h
        · exact Or.inl h
        · exact Or.inr (List.mem_cons_of_mem z h)
    · simp only [hz, if_false] at hx
      rcases List.mem_cons.mp hx with hx | hx
      · exact Or.inl hx
      · exact Or.inr hx

theorem mem_sortHypsDesc {x : OCRHypothesis} {l : List OCRHypothesis}
    (hx : x ∈ sortHypsDesc l) : x ∈ l := by
  induction l with
  | nil => exact absurd hx (by simp [sortHypsDesc])
  | cons y ys ih =>
    have hx2 : x ∈ insertHypDesc y (sortHypsDesc ys) := hx
    rcases mem_insertHypDesc hx2 with h | h
    · simp [h]
    · exact List.mem_cons_of_mem y (ih h)

theorem emaUpdate_pres (h : OCRHypothesis) (l : List OCRHypothesis)
    (hl : ∀ x ∈ l, mkRat 3 10 < x.confidence ∧ 0 < x.text.length)
    (hh : mkRat 3 10 < h.confidence) :
    ∀ x ∈ emaUpdate h l, mkRat 3 10 < x.confidence ∧ 0 < x.text.length := by
  induction l with
  | nil => intro x hx; simp [emaUpdate] at hx
  | cons y ys ih =>
    intro x hx
    unfold emaUpdate at hx
    by_cases hy : sameTextVariant h y
    · rw [if_pos hy] at hx
      rcases List.mem_cons.mp hx with hx | hx
      · subst hx
        rcases hl y (by simp) with ⟨hyc, hyt⟩
        refine ⟨?_, by simpa using hyt⟩
        show mkRat 3 10 < qadd (qmul y.confidence (mkRat 7 10)) (qmul h.confidence (mkRat 3 10))
        rw [qadd_eq, qmul_eq, qmul_eq, mkRat_seven_tenths, mkRat_three_tenths]
        rw [mkRat_three_tenths] at hyc hh
        linarith
      · exact hl x (List.mem_cons_of_mem y hx)
    · rw [if_neg hy] at hx
      rcases List.mem_cons.mp hx with hx | hx
      · exact hl x (by simp [hx])
      · exact ih (fun z hz => hl z (List.mem_cons_of_mem y hz)) x hx

theorem addToList_pres (l : List OCRHypothesis) (h : OCRHypothesis)
    (hl : ∀ x ∈ l, mkRat 3 10 < x.confidence ∧ 0 < x.text.length)
    (hhc : mkRat 3 10 < h.confidence) (hht : 0 < h.text.length) :
    ∀ x ∈ addToList l h, mkRat 3 10 < x.confidence ∧ 0 < x.text.length := by
  intro x hx
  unfold addToList at hx
  by_cases hf : (l.find? (sameTextVariant h)).isSome
  · rw [if_pos hf] at hx
    exact emaUpdate_pres h l hl hhc x hx
  · rw [if_neg hf] at hx
    have hmem : x ∈ l ++ [h] := by
      by_cases hlen : (l ++ [h]).length > 5
      · rw [if_pos hlen] at hx
        exact mem_sortHypsDesc (List.mem_of_mem_take hx)
      · rw [if_neg hlen] at hx
        exact hx
    rcases List.mem_append.mp hmem with hm | hm
    · exact hl x hm
    · rcases List.mem_singleton.mp hm with rfl
      exact ⟨hhc, hht⟩

theorem mem_assocSet {α : Type} {m : List (String × α)} {k : String} {v : α}
    {p : String × α} (hp : p ∈ assocSet m k v) : p = (k, v) ∨ p ∈ m := by
  induction m with
  | nil =>
    simp only [assocSet, List.mem_singleton] at hp
    exact Or.inl hp
  | cons q qs ih =>
    unfold assocSet at hp
    rcases q with ⟨q1, q2⟩
    by_cases hq : q1 = k
    · rw [if_pos hq] at hp
      rcases List.mem_cons.mp hp with h | h
      · exact Or.inl h
      · exact Or.inr (List.mem_cons_of_mem _ h)
    · rw [if_neg hq] at hp
      rcases List.mem_cons.mp hp with h | h
      · exact Or.inr (by simp [h])
      · rcases ih h with h2 | h2
        · exact Or.inl h2
        · exact Or.inr (List.mem_cons_of_mem _ h2)

theorem assocGet_mem {α : Type} {m : List (String × α)} {k : String} {l : α}
    (h : assocGet m k = some l) : (k, l) ∈ m := by
  unfold assocGet at h
  cases hf : m.find? (fun p => p.1 == k) with
  | none => rw [hf] at h; exact absurd h (by simp)
  | some q =>
    rw [hf] at h
    simp only [Option.map_some'] at h
    have hq : q ∈ m := List.mem_of_find?_eq_some hf
    have hk := List.find?_some hf
    have heq : q = (k, l) := by
      obtain ⟨q1, q2⟩ := q
      simp only [beq_iff_eq] at hk
      simp only [Option.some.injEq] at h hk
      simp [hk, h]
    exact heq ▸ hq

theorem addHypothesis_pres (m : HypMap) (field : String) (h : OCRHypothesis)
    (hm : HypInv m) (hhc : mkRat 3 10 < h.confidence) (hht : 0 < h.text.length) :
    HypInv (addHypothesis m field h) := by
  intro p hp
  rcases mem_assocSet hp with hp2 | hp2
  · subst hp2
    intro x hx
    apply addToList_pres ((assocGet m field).getD []) h ?_ hhc hht x hx
    intro z hz
    cases hg : assocGet m field with
    | none => rw [hg] at hz; exact absurd hz (by simp)
    | some l0 =>
      rw [hg] at hz
      exact hm (field, l0) (assocGet_mem hg) z hz
  · exact hm p hp2

theorem cleanOldHypotheses_pres (m : HypMap) (now : ℤ) (hm : HypInv m) :
    HypInv (cleanOldHypotheses m now) := by
  induction m with
  | nil => exact hm
  | cons q qs ih =>
    have hqs : HypInv qs := fun p hp => hm p (List.mem_cons_of_mem q hp)
    unfold cleanOldHypotheses
    by_cases hE : (q.2.filter (fun h => now - h.timestamp < 2000)).isEmpty
    · simp only [hE, if_true]
      exact ih hqs
    · simp only [hE, if_false]
      intro p hp
      rcases List.mem_cons.mp hp with hcase | hcase
      · subst hcase
        intro x hx
        exact hm q (by simp) x (List.mem_filter.mp hx).1
      · exact ih hqs p hcase

theorem processReadingsFresh_pres (rs : List ReadingEvent) :
    ∀ (m : HypMap) (now : ℤ), HypInv m → HypInv (processReadingsFresh m rs now) := by
  induction rs with
  | nil => intro m now hm; exact hm
  | cons e rest ih =>
    intro m now hm
    show HypInv (processReadingsFresh
      (if e.reading.confidence > mkRat 3 10 ∧ 0 < e.reading.text.length then
        addHypothesis m e.field
          (OCRHypothesis.mk e.field e.reading.text e.reading.confidence now e.variant)
      else m) rest now)
    by_cases hc : e.reading.confidence > mkRat 3 10 ∧ 0 < e.reading.text.length
    · rw [if_pos hc]
      exact ih _ now (addHypothesis_pres m e.field _ hm hc.1 hc.2)
    · rw [if_neg hc]
      exact ih m now hm

theorem emaUpdate_updates_first (h : OCRHypothesis) (l : List OCRHypothesis) (x : OCRHypothesis)
    (hf : l.find? (sameTextVariant h) = some x) :
    { x with
      confidence := qadd (qmul x.confidence (mkRat 7 10)) (qmul h.confidence (mkRat 3 10)),
      timestamp := h.timestamp } ∈ emaUpdate h l := by
  induction l with
  | nil => simp at hf
  | cons y ys ih =>
    unfold emaUpdate
    by_cases hy : sameTextVariant h y
    · rw [if_pos hy]
      rw [List.find?_cons_of_pos _ hy] at hf
      have hxy : y = x := by simpa using hf
      subst hxy
      exact List.mem_cons_self _ _
    · rw [if_neg hy]
      rw [List.find?_cons_of_neg _ hy] at hf
      exact List.mem_cons_of_mem y (ih hf)

theorem assocGet_assocSet_self {α : Type} (m : List (String × α)) (k : String) (v : α) :
    assocGet (assocSet m k v) k = some v := by
  induction m with
  | nil => simp [assocSet, assocGet]
  | cons q qs ih =>
    unfold assocSet
    by_cases hq : q.1 = k
    · rw [if_pos hq]
      simp [assocGet]
    · rw [if_neg hq]
      unfold assocGet
      rw [List.find?_cons_of_neg _ (by simp [hq])]
      exact ih

/-! ## Claim theorems -/

/-- C1, amended: when the commit cooldown has elapsed, every fused field
has at least minVotes votes and confidence at least 0.8, AND the
assembled identification's overall confidence reaches the engine's 0.85
confidence threshold, processHypotheses returns shouldCommit = true.
(The threshold gate is the amendment: strong consensus alone does not
commit below it.) -/
theorem C1_strong_consensus_commits_at_threshold (s : FusionState)
    (hyps : List (String × List OCRHypothesis)) (symb : Option (List SymbolCandidate)) (now : ℤ)
    (hcool : COMMIT_COOLDOWN ≤ now - s.lastCommitTime)
    (hconf : confidenceThreshold ≤ (tickIdent s hyps symb now).confidence)
    (hcons : ∀ p ∈ tickFused s hyps now, minVotes ≤ p.2.votes ∧ mkRat 8 10 ≤ p.2.confidence) :
    (processHypotheses s hyps symb now).2.shouldCommit = true := by
  unfold processHypotheses
  rw [if_neg (by omega : ¬ (now - s.lastCommitTime < COMMIT_COOLDOWN))]
  rw [if_pos]
  constructor
  · exact hconf
  · unfold shouldCommitEarly
    have hall : (tickFused s hyps now).all
        (fun p => decide (p.2.votes ≥ minVotes) && decide (p.2.confidence ≥ mkRat 8 10)) =
        true := by
      apply List.all_eq_true.mpr
      intro p hp
      rcases hcons p hp with ⟨h1, h2⟩
      simp [h1, h2]
    simp [hall]

/-- C1 witness: a clean two-field read (EMN / 204, three 0.9-confidence
votes each) satisfies the hypotheses and commits. -/
theorem C1_strong_consensus_commits_at_threshold_witness :
    COMMIT_COOLDOWN ≤ (10000 : ℤ) - initFusionState.lastCommitTime ∧
    confidenceThreshold ≤ (tickIdent initFusionState emnMap none 10000).confidence ∧
    (processHypotheses initFusionState emnMap none 10000).2.shouldCommit = true :=
  ⟨by decide, by decide,
    C1_strong_consensus_commits_at_threshold initFusionState emnMap none 10000 (by decide)
      (by decide) (by decide)⟩

/-- C1 counterexample: with the cooldown elapsed and a single fused field
(title) holding 3 votes at confidence 0.8, the identification's overall
confidence is 0.8 — below 0.9 as the claim allows — yet shouldCommit is
false, because 0.8 is below the 0.85 confidence threshold the claim
omits. -/
theorem C1_strong_consensus_alone_does_not_commit :
    COMMIT_COOLDOWN ≤ (10000 : ℤ) - initFusionState.lastCommitTime ∧
    (∀ p ∈ tickFused initFusionState titleMap 10000,
      minVotes ≤ p.2.votes ∧ mkRat 8 10 ≤ p.2.confidence) ∧
    Option.map (fun i => i.confidence)
      (processHypotheses initFusionState titleMap none 10000).2.identification =
      some (mkRat 8 10) ∧
    mkRat 8 10 < mkRat 9 10 ∧
    (processHypotheses initFusionState titleMap none 10000).2.shouldCommit = false := by
  decide

/-- C2: two commit-eligible slow-loop ticks 500 ms apart — well inside
COMMIT_COOLDOWN — each produce a card-committed event, because
commitCard resets the fusion engine, zeroing lastCommitTime and
defeating the cooldown. This exhibits the code bug the claim exposes. -/
theorem C2_second_commit_inside_cooldown :
    (10500 : ℤ) - 10000 < COMMIT_COOLDOWN ∧
    (slowLoopTick defaultConfig (slowLoopTick defaultConfig startedState 10000) 10500).events =
      [("card-identified", 10000), ("card-committed", 10000),
        ("card-identified", 10500), ("card-committed", 10500)] ∧
    ((slowLoopTick defaultConfig (slowLoopTick defaultConfig startedState 10000)
      10500).events.filter (fun e => e.1 == "card-committed")).length = 2 := by
  decide

/-- C3, amended: the fusion computation is idempotent on an unchanged
window: after any processHypotheses call, a second call that passes no
new hypotheses (leaving the HypothesisWindow unchanged) computes an
identical FusedField snapshot. -/
theorem C3_refusing_unchanged_window_is_idempotent (s : FusionState)
    (hyps : List (String × List OCRHypothesis)) (symb : Option (List SymbolCandidate)) (now : ℤ) :
    tickFused ((processHypotheses s hyps symb now).1) [] now = tickFused s hyps now := by
  unfold tickFused tickHistory
  rw [updateVoteHistory_nil, processHypotheses_fst_voteHistory]
  unfold tickHistory
  rw [cleanOldVotes_idem]

/-- C3 counterexample: calling processHypotheses a second time with the
SAME non-empty hypothesis map re-inserts the hypotheses as new votes, so
the snapshot is not identical: votes and totalVotes double (1 to 2 for a
single title hypothesis). -/
theorem C3_reprocessing_same_map_doubles_votes :
    Option.map (fun f => (f.votes, f.totalVotes))
      (fusedLookup (tickFused initFusionState oneTitleMap 10000) "title") = some (1, 1) ∧
    Option.map (fun f => (f.votes, f.totalVotes))
      (fusedLookup
        (tickFused (processHypotheses initFusionState oneTitleMap none 10000).1 oneTitleMap
          10000) "title") = some (2, 2) ∧
    tickFused (processHypotheses initFusionState oneTitleMap none 10000).1 oneTitleMap 10000 ≠
      tickFused initFusionState oneTitleMap 10000 := by
  decide

/-- C4, amended: the returned consecutiveStableFrames is the count of
locally-stable frames among the most recent STABILITY_FRAMES_REQUIRED
(five) frames — a sliding-window count, not the unbroken-run length —
and an out-of-threshold frame does force isStable = false on its tick
(the window then holds at most four stable frames). -/
theorem C4_counter_is_window_count (fs : List FrameMeas) (f : FrameMeas) :
    (analyzeFrame (runFrames initTrackerState fs) f).2.consecutiveStableFrames =
      ((lastN STABILITY_FRAMES_REQUIRED
        (stableSeq false (fs ++ [f]))).filter id).length ∧
    (localStable (runFrames initTrackerState fs).hasPose f = false →
      (analyzeFrame (runFrames initTrackerState fs) f).2.isStable = false) := by
  rcases runFrames_invariant fs initTrackerState (by simp [initTrackerState]) with ⟨h1, h2⟩
  have hhist : (runFrames initTrackerState fs).stabilityHistory =
      lastN STABILITY_FRAMES_REQUIRED (stableSeq false fs) := by
    simpa [initTrackerState] using h1
  have hpose : (runFrames initTrackerState fs).hasPose = !fs.isEmpty := by
    simpa [initTrackerState] using h2
  rcases analyzeFrame_metrics (runFrames initTrackerState fs) f with ⟨hm1, hm2⟩
  constructor
  · rw [hm1, hhist, hpose, pushShift_eq _ _ (length_lastN _ _), lastN_append_lastN,
      stableSeq_append_single]
    simp
  · intro hb
    rw [hm2, hb, hhist, pushShift_eq _ _ (length_lastN _ _), lastN_append_lastN]
    rw [decide_eq_false_iff_not]
    exact Nat.not_le.mpr (filter_lastN_ending_false_lt _)

/-- C4 witness: after four stable frames, the out-of-threshold fifth
frame (10 px motion) is locally unstable and forces isStable = false. -/
theorem C4_counter_is_window_count_witness :
    localStable
      (runFrames initTrackerState [goodFrame, goodFrame, goodFrame, goodFrame]).hasPose
      badFrame = false ∧
    (analyzeFrame (runFrames initTrackerState [goodFrame, goodFrame, goodFrame, goodFrame])
      badFrame).2.isStable = false :=
  ⟨by decide,
    (C4_counter_is_window_count [goodFrame, goodFrame, goodFrame, goodFrame] badFrame).2
      (by decide)⟩

/-- C4 counterexample: an out-of-threshold frame in the middle of a
stable run does NOT reset the returned consecutiveStableFrames to 0: on
the bad tick the counter still reads 4 (the other stable frames of the
five-frame window). -/
theorem C4_bad_frame_leaves_counter_at_four :
    localStable
      (runFrames initTrackerState [goodFrame, goodFrame, goodFrame, goodFrame]).hasPose
      badFrame = false ∧
    (analyzeFrame (runFrames initTrackerState [goodFrame, goodFrame, goodFrame, goodFrame])
      badFrame).2.consecutiveStableFrames = 4 ∧
    (analyzeFrame (runFrames initTrackerState [goodFrame, goodFrame, goodFrame, goodFrame])
      badFrame).2.consecutiveStableFrames ≠ 0 := by
  decide

/-- C5: immediately after an auto-committed identification, the commit
event was emitted but the fusion engine's commit history is EMPTY and
lastCommitTime is 0, not the commit time — commitCard's reset() wipes
them both (the vote history is reset as the claim says). This exhibits
the code bug the claim exposes. -/
theorem C5_commit_erases_history_and_cooldown :
    (slowLoopTick defaultConfig startedState 10000).events =
      [("card-identified", 10000), ("card-committed", 10000)] ∧
    (slowLoopTick defaultConfig startedState 10000).fusion.voteHistory = [] ∧
    (slowLoopTick defaultConfig startedState 10000).fusion.commitHistory = [] ∧
    (slowLoopTick defaultConfig startedState 10000).fusion.lastCommitTime = 0 ∧
    (slowLoopTick defaultConfig startedState 10000).fusion.lastCommitTime ≠ 10000 := by
  decide

/-- C6: the grouping test areValuesSimilar holds exactly when the two
values' lengths differ by at most one and at most one differing
character position is not a member of the confusion-pair table; "C16"
and "Cl6" merge into one vote group while "C16" and "M20" stay apart;
and every listed confusion pair (O-0, I-1, l-1, S-5, Z-2, B-8, G-6,
q-9, slash-7) is recognized in both orders. -/
theorem C6_confusion_similarity :
    (∀ a b : String, areValuesSimilar a b = true ↔ specSameVote a b) ∧
    areValuesSimilar "C16" "Cl6" = true ∧
    areValuesSimilar "C16" "M20" = false ∧
    (groupVotesWithConfusion [Vote.mk "C16" (mkRat 1 2) 0, Vote.mk "Cl6" (mkRat 1 2) 0]).map
      (fun g => (g.1, g.2.length)) = [("C16", 2)] ∧
    (groupVotesWithConfusion [Vote.mk "C16" (mkRat 1 2) 0, Vote.mk "M20" (mkRat 1 2) 0]).map
      (fun g => (g.1, g.2.length)) = [("C16", 1), ("M20", 1)] ∧
    ([('O', '0'), ('I', '1'), ('l', '1'), ('S', '5'), ('Z', '2'), ('B', '8'), ('G', '6'),
      ('q', '9'), ('/', '7')].all
      (fun p => isConfusionPair (some p.1) (some p.2) &&
        isConfusionPair (some p.2) (some p.1))) = true := by
  refine ⟨?_, by decide, by decide, by decide, by decide, by decide⟩
  intro a b
  unfold areValuesSimilar specSameVote diffCount
  simp only [String.length]
  by_cases hab : a == b
  · have hEq : a = b := by
      exact beq_iff_eq.mp hab
    subst hEq
    simp only [hab, if_true]
    constructor
    · intro _
      constructor
      · omega
      · have hnil : (List.range (max a.data.length a.data.length)).filter (fun i =>
            !(charAt a.data i == charAt a.data i) &&
            !isConfusionPair (charAt a.data i) (charAt a.data i)) = [] := by
          apply List.filter_eq_nil_iff.mpr
          intro i _
          simp
        rw [hnil]
        simp
    · intro _
      trivial
  · rw [if_neg (by simpa using hab)]
    by_cases hlen : (((a.data.length : ℤ)) - (b.data.length : ℤ)).natAbs > 1
    · rw [if_pos hlen]
      constructor
      · intro h
        exact absurd h (by simp)
      · intro h
        exact absurd h.1 (by omega)
    · rw [if_neg hlen]
      rw [← List.countP_eq_length_filter]
      constructor
      · intro h
        refine ⟨by omega, ?_⟩
        exact of_decide_eq_true h
      · intro h
        exact decide_eq_true h.2

/-- C7, amended: the fresh-extraction path accepts a reading iff its
confidence exceeds 0.3 and its text is non-empty (the hypothesis store's
invariant is preserved, and a reading failing either condition changes
nothing); the cached-ROI reuse path checks only the confidence floor, so
only a reading at or below 0.3 confidence is guaranteed to add nothing
there. -/
theorem C7_acceptance_floor_by_path :
    (∀ (m : HypMap) (rs : List ReadingEvent) (now : ℤ),
      HypInv m → HypInv (processROIsFresh m rs now)) ∧
    (∀ (m : HypMap) (e : ReadingEvent) (now : ℤ),
      ¬ (mkRat 3 10 < e.reading.confidence ∧ 0 < e.reading.text.length) →
      processReadingsFresh m [e] now = m) ∧
    (∀ (m : HypMap) (e : ReadingEvent) (now : ℤ),
      ¬ (mkRat 3 10 < e.reading.confidence) →
      processReadingsCached m [e] now = m) := by
  refine ⟨?_, ?_, ?_⟩
  · intro m rs now hm
    exact cleanOldHypotheses_pres _ now (processReadingsFresh_pres rs m now hm)
  · intro m e now hc
    simp only [processReadingsFresh, List.foldl_cons, List.foldl_nil]
    rw [if_neg hc]
  · intro m e now hc
    simp only [processReadingsCached, List.foldl_cons, List.foldl_nil]
    rw [if_neg hc]

/-- C7 witness: an accepted EMN reading keeps the store invariant, and a
0.1-confidence reading adds nothing in the cached path. -/
theorem C7_acceptance_floor_by_path_witness :
    HypInv [] ∧
    HypInv (processROIsFresh []
      [ReadingEvent.mk "set_code" "raw" (Reading.mk "EMN" (mkRat 1 2))] 1000) ∧
    processReadingsCached []
      [ReadingEvent.mk "set_code" "otsu" (Reading.mk "AB" (mkRat 1 10))] 1000 = [] :=
  ⟨by decide,
    C7_acceptance_floor_by_path.1 []
      [ReadingEvent.mk "set_code" "raw" (Reading.mk "EMN" (mkRat 1 2))] 1000 (by decide),
    C7_acceptance_floor_by_path.2.2 []
      (ReadingEvent.mk "set_code" "otsu" (Reading.mk "AB" (mkRat 1 10))) 1000 (by decide)⟩

/-- C7 counterexample: in the cached-ROI reuse path an empty-text
reading with confidence 0.5 IS added as a hypothesis (the source omits
the non-empty-text check there), contradicting the claim that both paths
require non-empty text. -/
theorem C7_cached_path_accepts_empty_text :
    ¬ (0 < ("" : String).length) ∧
    processROIsCached [] [ReadingEvent.mk "set_code" "otsu" (Reading.mk "" (mkRat 1 2))] 1000 =
      [("set_code", [OCRHypothesis.mk "set_code" "" (mkRat 1 2) 1000 "otsu"])] := by
  decide

/-- C8: a field's hypothesis list never exceeds five entries — adding to
a list of at most five keeps it at most five, a same-text/same-variant
reading merges (length unchanged) with its confidence updated to
old * 0.7 + incoming * 0.3, and any sequence of additions from the empty
list stays within the cap. -/
theorem C8_cap_and_smoothing :
    (∀ (l : List OCRHypothesis) (h : OCRHypothesis), l.length ≤ 5 → (addToList l h).length ≤ 5) ∧
    (∀ (l : List OCRHypothesis) (h : OCRHypothesis),
      (l.find? (sameTextVariant h)).isSome = true → (addToList l h).length = l.length) ∧
    (∀ (l : List OCRHypothesis) (h x : OCRHypothesis), l.find? (sameTextVariant h) = some x →
      { x with
        confidence := qadd (qmul x.confidence (mkRat 7 10)) (qmul h.confidence (mkRat 3 10)),
        timestamp := h.timestamp } ∈ addToList l h) ∧
    (∀ hs : List OCRHypothesis, (hs.foldl addToList []).length ≤ 5) := by
  have part1 : ∀ (l : List OCRHypothesis) (h : OCRHypothesis),
      l.length ≤ 5 → (addToList l h).length ≤ 5 := by
    intro l h hle
    unfold addToList
    by_cases hf : (l.find? (sameTextVariant h)).isSome
    · rw [if_pos hf, emaUpdate_length]
      exact hle
    · rw [if_neg hf]
      by_cases hlen : (l ++ [h]).length > 5
      · rw [if_pos hlen]
        rw [List.length_take]
        omega
      · rw [if_neg hlen]
        omega
  refine ⟨part1, ?_, ?_, ?_⟩
  · intro l h hf
    unfold addToList
    rw [if_pos hf, emaUpdate_length]
  · intro l h x hf
    unfold addToList
    rw [if_pos (by simp [hf])]
    exact emaUpdate_updates_first h l x hf
  · intro hs
    have gen : ∀ (ts : List OCRHypothesis) (l : List OCRHypothesis), l.length ≤ 5 →
        (ts.foldl addToList l).length ≤ 5 := by
      intro ts
      induction ts with
      | nil => intro l hle; exact hle
      | cons t rest ih =>
        intro l hle
        exact ih (addToList l t) (part1 l t hle)
    exact gen hs [] (by simp)

/-- C8 witness: concrete additions stay within the cap, and a duplicate
collector-number reading merges instead of appending. -/
theorem C8_cap_and_smoothing_witness :
    (addToList [] sampleHyp).length ≤ 5 ∧
    (addToList [sampleHyp] sampleHyp).length = 1 ∧
    { sampleHyp with
      confidence := qadd (qmul sampleHyp.confidence (mkRat 7 10))
        (qmul sampleHyp.confidence (mkRat 3 10)),
      timestamp := sampleHyp.timestamp } ∈ addToList [sampleHyp] sampleHyp ∧
    (([sampleHyp, sampleHyp, sampleHyp].foldl addToList []).length ≤ 5) :=
  ⟨C8_cap_and_smoothing.1 [] sampleHyp (by decide),
   C8_cap_and_smoothing.2.1 [sampleHyp] sampleHyp (by decide),
   C8_cap_and_smoothing.2.2.1 [sampleHyp] sampleHyp sampleHyp (by decide),
   C8_cap_and_smoothing.2.2.2 [sampleHyp, sampleHyp, sampleHyp]⟩

/-- C9, amended: start performs no validation of the configuration: from
the stopped state it always transitions to running and schedules all
three loops, whatever the rates (the only synchronous rejection is being
already running). -/
theorem C9_start_accepts_any_config (cfg : StreamingOCRConfig) (st : ServiceState) (now : ℤ)
    (h : st.isRunning = false) :
    (serviceStart cfg st now).isRunning = true ∧
    (serviceStart cfg st now).fastLoopScheduled = true ∧
    (serviceStart cfg st now).mediumLoopScheduled = true ∧
    (serviceStart cfg st now).slowLoopScheduled = true := by
  unfold serviceStart emitEvent
  simp [h]

/-- C9 witness: the zero-rate configuration is accepted from the stopped
state. -/
theorem C9_start_accepts_any_config_witness :
    initServiceState.isRunning = false ∧
    (serviceStart zeroRateConfig initServiceState 0).isRunning = true ∧
    (serviceStart zeroRateConfig initServiceState 0).fastLoopScheduled = true ∧
    (serviceStart zeroRateConfig initServiceState 0).mediumLoopScheduled = true ∧
    (serviceStart zeroRateConfig initServiceState 0).slowLoopScheduled = true :=
  ⟨by decide, C9_start_accepts_any_config zeroRateConfig initServiceState 0 (by decide)⟩

/-- C9 counterexample: a configuration with a non-positive fast-loop
rate is NOT rejected: start leaves the stopped state, schedules the
loops, and the pipeline runs. -/
theorem C9_zero_rate_config_still_starts :
    ¬ (0 < zeroRateConfig.fastLoopFps) ∧
    initServiceState.isRunning = false ∧
    (serviceStart zeroRateConfig initServiceState 0).isRunning = true ∧
    (serviceStart zeroRateConfig initServiceState 0).fastLoopScheduled = true ∧
    (serviceStart zeroRateConfig initServiceState 0).mediumLoopScheduled = true ∧
    (serviceStart zeroRateConfig initServiceState 0).slowLoopScheduled = true := by
  decide

/-- C10, amended: normalization before the vote history is per field:
title is only trimmed (case preserved); every field other than the four
special-cased ones is trimmed and uppercased; collector_number and
footer reduce to the first digit run re-rendered without leading zeros
("013/280" votes as "13", "000" as "0"); set_code reduces to the first
standalone 2-5 uppercase-letter token when one exists; and updateField
stores exactly the normalized values (capped at 20) in the vote
history, so grouping and winners operate on normalized values. -/
theorem C10_per_field_normalization :
    (∀ t : String, normalizeValue t "title" = jsTrim t) ∧
    (∀ (t f : String), f ≠ "collector_number" → f ≠ "footer" → f ≠ "set_code" → f ≠ "title" →
      normalizeValue t f = jsUpper (jsTrim t)) ∧
    (∀ (t f : String) (ds : List Char), (f = "collector_number" ∨ f = "footer") →
      findDigitRun (jsUpper (jsTrim t)).data = some ds →
      normalizeValue t f = Nat.repr (natOfDigits ds)) ∧
    (∀ (t : String) (tok : List Char),
      findSetCodeToken none (jsUpper (jsTrim t)).data = some tok →
      normalizeValue t "set_code" = String.mk tok) ∧
    normalizeValue "013/280" "collector_number" = "13" ∧
    normalizeValue " 0033 " "footer" = "33" ∧
    normalizeValue "000" "collector_number" = "0" ∧
    normalizeValue "emn 204" "set_code" = "EMN" ∧
    (∀ (vh : VoteHistory) (f : String) (hs : List OCRHypothesis),
      assocGet (updateField vh f hs) f = some (capLast 20 (((assocGet vh f).getD []) ++
        hs.map (fun h => Vote.mk (normalizeValue h.text f) h.confidence h.timestamp)))) := by
  refine ⟨?_, ?_, ?_, ?_, by decide, by decide, by decide, by decide, ?_⟩
  · intro t
    rfl
  · intro t f h1 h2 h3 h4
    unfold normalizeValue
    rw [if_neg (by simp [h1, h2]), if_neg h3, if_neg h4]
  · intro t f ds hf hds
    rcases hf with rfl | rfl
    · unfold normalizeValue
      rw [if_pos (by simp)]
      rw [hds]
    · unfold normalizeValue
      rw [if_pos (by simp)]
      rw [hds]
  · intro t tok hds
    unfold normalizeValue
    rw [if_neg (by simp), if_pos rfl]
    rw [hds]
  · intro vh f hs
    unfold updateField
    exact assocGet_assocSet_self vh f _

/-- C10 witness: the generic rule applies to the types field, the digit
rule to "R 0033", and the token rule to "emn 204". -/
theorem C10_per_field_normalization_witness :
    normalizeValue "abc" "types" = jsUpper (jsTrim "abc") ∧
    normalizeValue "R 0033" "collector_number" = Nat.repr (natOfDigits ['0', '0', '3', '3']) ∧
    normalizeValue "emn 204" "set_code" = String.mk ['E', 'M', 'N'] :=
  ⟨C10_per_field_normalization.2.1 "abc" "types" (by decide) (by decide) (by decide) (by decide),
   C10_per_field_normalization.2.2.1 "R 0033" "collector_number" ['0', '0', '3', '3']
     (Or.inl rfl) (by decide),
   C10_per_field_normalization.2.2.2.1 "emn 204" ['E', 'M', 'N'] (by decide)⟩

/-- C10 counterexample: a title is NOT uppercased — "abc" stays "abc" —
so "trimmed and uppercased" does not hold for the title field. -/
theorem C10_title_is_not_uppercased :
    normalizeValue "abc" "title" = "abc" ∧
    normalizeValue "abc" "title" ≠ jsUpper (jsTrim "abc") := by
  decide

end CardScanner
